import Mathlib

/-!
Shallow embedding of `pkg/errors/remediation_error.go` from the repository.

Go error values are interface values with identity: two distinct error values may
carry the same message. `GoError` models a non-nil Go error value as an identity
tag together with the string its `Error()` method returns; a possibly-nil Go
error is `Option GoError`.

`Print` writes to an `io.Writer`; the embedding returns the string written.
`fmt.Fprintf` is modelled by `sprintfS`, which substitutes each `%s` verb in the
format template with the next argument; the arguments themselves are spliced as
data and never re-scanned for verbs, as in Go.
-/

/-- Model of a non-nil Go `error` value: an identity tag plus the message
returned by its `Error()` method. Distinct values may share a message. -/
structure GoError where
  id : Nat
  msg : String
deriving DecidableEq

/-- The struct from `remediation_error.go`: a custom message, the root error
(nil modelled as `none`), and a remediation suggestion. -/
structure RemediationError where
  Prefix : String
  Inner : Option GoError
  Remediation : String
deriving DecidableEq

/-- Model of Go `strings.TrimRight s cutset`: remove the trailing characters of
`s` that are members of `cutset`. -/
def goTrimRight (s : String) (cutset : List Char) : String :=
  String.mk ((s.data.reverse.dropWhile (fun c => decide (c ∈ cutset))).reverse)

/-- The cutset `"\r\n"` used by `Print` for both trims. -/
def crlf : List Char := ['\r', '\n']

/-- Model of `fmt.Sprintf`-style substitution restricted to the `%s` verb (the
only verb the embedded code uses): each `%s` in the format consumes the next
argument, whose characters are copied verbatim; a missing argument yields Go's
`%!s(MISSING)` marker (never reached by the code below). -/
def sprintfChars : List Char → List String → List Char
  | [], _ => []
  | '%' :: 's' :: rest, arg :: args => arg.data ++ sprintfChars rest args
  | '%' :: 's' :: rest, [] => "%!s(MISSING)".data ++ sprintfChars rest []
  | c :: rest, args => c :: sprintfChars rest args

/-- String-level wrapper around `sprintfChars`; the text `fmt.Fprintf w format args`
writes. -/
def sprintfS (format : String) (args : List String) : String :=
  String.mk (sprintfChars format.data args)

/-- Modelled from the spec: the helper `text.Error` of `pkg/text` is not among the
provided sources. Per the spec, the inner-error block renders as
`"Error: <message>.\n\n"`: an `"Error: "` marker followed by the formatted text,
the message being passed as a format argument (never as a format string), and the
stated trailing `".\n\n"` kept as written by the caller's format. -/
def text.Error (format : String) (args : List String) : String :=
  "Error: " ++ sprintfS format args

/-- `Unwrap` returns the inner error. -/
def RemediationError.Unwrap : RemediationError → Option GoError
  | ⟨_, inner, _⟩ => inner

/-- `Error` prints the inner error string without any remediation suggestion. -/
def RemediationError.Error : RemediationError → String
  | ⟨_, inner, _⟩ =>
    match inner with
    | none => ""
    | some e => e.msg

/-- `Print` renders the error for human consumption; the string written to the
writer is returned. -/
def RemediationError.Print : RemediationError → String
  | ⟨p, inner, r⟩ =>
    (if p ≠ "" then sprintfS "%s\n\n" [goTrimRight p crlf] else "") ++
    (match inner with
     | some e => text.Error "%s.\n\n" [e.msg]
     | none => "") ++
    (if r ≠ "" then sprintfS "%s\n" [goTrimRight r crlf] else "")

/-- The first of the three output blocks of `Print` (the custom message). -/
def prefixBlock : RemediationError → String
  | ⟨p, _, _⟩ => if p ≠ "" then sprintfS "%s\n\n" [goTrimRight p crlf] else ""

/-- The second of the three output blocks of `Print` (the inner error). -/
def innerBlock : RemediationError → String
  | ⟨_, inner, _⟩ =>
    match inner with
    | some e => text.Error "%s.\n\n" [e.msg]
    | none => ""

/-- The third of the three output blocks of `Print` (the remediation). -/
def remediationBlock : RemediationError → String
  | ⟨_, _, r⟩ => if r ≠ "" then sprintfS "%s\n" [goTrimRight r crlf] else ""

/-- A Go runtime panic that a method call on a nil interface value would raise. -/
inductive GoPanic where
  | nilDeref
deriving DecidableEq

/-- Calling `.Error()` on a possibly-nil Go error: panics (`Except.error`) when
the value is nil, otherwise returns the message. -/
def errorMethodCall : Option GoError → Except GoPanic String
  | none => Except.error GoPanic.nilDeref
  | some e => Except.ok e.msg

/-- `Error` with the potential panic point made explicit: the unguarded
`re.Inner.Error()` call is `errorMethodCall`, reached only when the guard
`re.Inner == nil` failed. -/
def RemediationError.ErrorE : RemediationError → Except GoPanic String
  | ⟨_, inner, _⟩ =>
    if inner = none then Except.ok ""
    else errorMethodCall inner

/-- `Unwrap` with panic points made explicit (it has none). -/
def RemediationError.UnwrapE : RemediationError → Except GoPanic (Option GoError)
  | ⟨_, inner, _⟩ => Except.ok inner

/-- `Print` with the potential panic point made explicit: `re.Inner.Error()` is
called only under the `re.Inner != nil` guard. -/
def RemediationError.PrintE : RemediationError → Except GoPanic String
  | ⟨p, inner, r⟩ => do
    let first := if p ≠ "" then sprintfS "%s\n\n" [goTrimRight p crlf] else ""
    let second ← if inner ≠ none then do
        let m ← errorMethodCall inner
        pure (text.Error "%s.\n\n" [m])
      else pure ""
    let third := if r ≠ "" then sprintfS "%s\n" [goTrimRight r crlf] else ""
    pure (first ++ second ++ third)

/-- One receiver-method call on a `RemediationError`. -/
inductive CallOp where
  | unwrapCall
  | errorCall
  | printCall
deriving DecidableEq

/-- The observable result of one method call. -/
inductive CallObs where
  | unwrapped : Option GoError → CallObs
  | message : String → CallObs
  | printed : String → CallObs
deriving DecidableEq

/-- One method call: the three Go methods take the receiver by value and assign
no fields, so each call returns the receiver state it leaves behind (unchanged)
together with its observable result. -/
def callStep : RemediationError → CallOp → RemediationError × CallObs
  | re, CallOp.unwrapCall => (re, CallObs.unwrapped (RemediationError.Unwrap re))
  | re, CallOp.errorCall => (re, CallObs.message (RemediationError.Error re))
  | re, CallOp.printCall => (re, CallObs.printed (RemediationError.Print re))

/-- A sequence of method calls threaded through the receiver state, collecting
the observations. -/
def callTrace : RemediationError → List CallOp → RemediationError × List CallObs
  | re, [] => (re, [])
  | re, op :: rest =>
    let s := callStep re op
    let t := callTrace s.1 rest
    (t.1, s.2 :: t.2)

theorem sprintfS_s_nn (s : String) : sprintfS "%s\n\n" [s] = s ++ "\n\n" := by
  cases s with
  | mk d => rfl

theorem sprintfS_s_n (s : String) : sprintfS "%s\n" [s] = s ++ "\n" := by
  cases s with
  | mk d => rfl

theorem textError_msg (s : String) :
    text.Error "%s.\n\n" [s] = "Error: " ++ s ++ ".\n\n" := by
  cases s with
  | mk d => rfl

theorem append_right_ne_empty (s t : String) (ht : t.data ≠ []) : s ++ t ≠ "" := by
  intro h
  have h2 : s.data ++ t.data = "".data := by rw [← String.data_append, h]
  exact ht (List.append_eq_nil.mp h2).2

theorem goTrimRight_decompose (s : String) (cutset : List Char) :
    ∃ t : List Char, (∀ c ∈ t, c ∈ cutset) ∧
      s.data = (goTrimRight s cutset).data ++ t := by
  refine ⟨(s.data.reverse.takeWhile (fun c => decide (c ∈ cutset))).reverse, ?_, ?_⟩
  · intro c hc
    rw [List.mem_reverse] at hc
    have hp := List.mem_takeWhile_imp (p := fun c => decide (c ∈ cutset)) hc
    exact of_decide_eq_true hp
  · calc s.data = s.data.reverse.reverse := (List.reverse_reverse _).symm
    _ = (List.takeWhile (fun c => decide (c ∈ cutset)) s.data.reverse ++
          List.dropWhile (fun c => decide (c ∈ cutset)) s.data.reverse).reverse := by
        rw [List.takeWhile_append_dropWhile]
    _ = (List.dropWhile (fun c => decide (c ∈ cutset)) s.data.reverse).reverse ++
          (List.takeWhile (fun c => decide (c ∈ cutset)) s.data.reverse).reverse := by
        rw [List.reverse_append]
    _ = (goTrimRight s cutset).data ++
          (List.takeWhile (fun c => decide (c ∈ cutset)) s.data.reverse).reverse := rfl

theorem goTrimRight_keep_last (l : List Char) (c : Char) (cutset : List Char)
    (hc : c ∉ cutset) : goTrimRight ⟨l ++ [c]⟩ cutset = ⟨l ++ [c]⟩ := by
  have hcc : ¬(decide (c ∈ cutset) = true) := by simpa using hc
  unfold goTrimRight
  rw [show (String.mk (l ++ [c])).data = l ++ [c] from rfl,
      show (l ++ [c]).reverse = c :: l.reverse by simp,
      List.dropWhile_cons, if_neg hcc]
  simp

/-- C1: for every `RemediationError`, `Error()` returns the empty string when the
inner error is nil, and otherwise exactly the inner error's message, with no
added punctuation, prefix, or remediation text. -/
theorem c1_error_short_form (p r : String) (e : GoError) :
    RemediationError.Error ⟨p, none, r⟩ = "" ∧
    RemediationError.Error ⟨p, some e, r⟩ = e.msg :=
  ⟨rfl, rfl⟩

/-- C2: for every error value, nil included, wrapping it and calling `Unwrap()`
yields exactly the original value (identity, not merely message equality). -/
theorem c2_unwrap_identity (p r : String) (inner : Option GoError) :
    RemediationError.Unwrap ⟨p, inner, r⟩ = inner :=
  rfl

/-- C3: with a non-nil inner error, the inner-error block of `Print` is exactly
"Error: <message>.\n\n" (forced trailing period and blank line) regardless of the
message's own punctuation; the listed scenario produces
"Error: token invalid.\n\nRun X\n". -/
theorem c3_inner_block_exact (p r : String) (e : GoError) :
    innerBlock ⟨p, some e, r⟩ = "Error: " ++ e.msg ++ ".\n\n" ∧
    RemediationError.Print ⟨"", some ⟨0, "token invalid"⟩, "Run X"⟩ =
      "Error: token invalid.\n\nRun X\n" := by
  constructor
  · show text.Error "%s.\n\n" [e.msg] = _
    exact textError_msg e.msg
  · rfl

/-- C4: `Print` emits the three blocks in the fixed order prefix, inner error,
remediation; a block is non-empty exactly when its field is non-empty (non-nil
for the inner error); with all three fields empty the output is empty. -/
theorem c4_block_order_presence (p r : String) (inner : Option GoError) :
    RemediationError.Print ⟨p, inner, r⟩ =
      prefixBlock ⟨p, inner, r⟩ ++ innerBlock ⟨p, inner, r⟩ ++
        remediationBlock ⟨p, inner, r⟩ ∧
    (prefixBlock ⟨p, inner, r⟩ = "" ↔ p = "") ∧
    (innerBlock ⟨p, inner, r⟩ = "" ↔ inner = none) ∧
    (remediationBlock ⟨p, inner, r⟩ = "" ↔ r = "") ∧
    RemediationError.Print ⟨"", none, ""⟩ = "" := by
  refine ⟨rfl, ?_, ?_, ?_, rfl⟩
  · by_cases hp : p = ""
    · subst hp
      simp [prefixBlock]
    · have hb : prefixBlock ⟨p, inner, r⟩ = goTrimRight p crlf ++ "\n\n" := by
        simp [prefixBlock, hp, sprintfS_s_nn]
      rw [hb]
      constructor
      · intro h
        exact absurd h (append_right_ne_empty _ _ (by decide))
      · intro h
        exact absurd h hp
  · cases inner with
    | none => simp [innerBlock]
    | some e =>
      have hb : innerBlock ⟨p, some e, r⟩ = ("Error: " ++ e.msg) ++ ".\n\n" := by
        rw [show innerBlock ⟨p, some e, r⟩ = text.Error "%s.\n\n" [e.msg] from rfl,
          textError_msg]
      rw [hb]
      constructor
      · intro h
        exact absurd h (append_right_ne_empty _ _ (by decide))
      · intro h
        exact Option.noConfusion h
  · by_cases hr : r = ""
    · subst hr
      simp [remediationBlock]
    · have hb : remediationBlock ⟨p, inner, r⟩ = goTrimRight r crlf ++ "\n" := by
        simp [remediationBlock, hr, sprintfS_s_n]
      rw [hb]
      constructor
      · intro h
        exact absurd h (append_right_ne_empty _ _ (by decide))
      · intro h
        exact absurd h hr

/-- C5: `Print` strips trailing newline and carriage-return characters from the
custom message and the remediation before appending the fixed "\n\n" and "\n";
the listed scenario produces "Custom context\n\n". -/
theorem c5_trim_then_fixed_breaks (p r : String) (inner : Option GoError)
    (hp : p ≠ "") (hr : r ≠ "") :
    prefixBlock ⟨p, inner, r⟩ = goTrimRight p crlf ++ "\n\n" ∧
    remediationBlock ⟨p, inner, r⟩ = goTrimRight r crlf ++ "\n" ∧
    RemediationError.Print ⟨"Custom context", none, ""⟩ = "Custom context\n\n" := by
  refine ⟨?_, ?_, rfl⟩
  · simp [prefixBlock, hp, sprintfS_s_nn]
  · simp [remediationBlock, hr, sprintfS_s_n]

theorem c5_trim_then_fixed_breaks_witness :
    ("ok\r\n" : String) ≠ "" ∧ ("go\n" : String) ≠ "" ∧
    (prefixBlock ⟨"ok\r\n", none, "go\n"⟩ = goTrimRight "ok\r\n" crlf ++ "\n\n" ∧
     remediationBlock ⟨"ok\r\n", none, "go\n"⟩ = goTrimRight "go\n" crlf ++ "\n" ∧
     RemediationError.Print ⟨"Custom context", none, ""⟩ = "Custom context\n\n") :=
  ⟨by decide, by decide,
    c5_trim_then_fixed_breaks "ok\r\n" "go\n" none (by decide) (by decide)⟩

/-- C6: construction is total for every combination of field values, and the
panic-instrumented versions of `Unwrap`, `Error` and `Print` always succeed,
agreeing with the pure results: no operation panics or reaches an error branch. -/
theorem c6_totality (p r : String) (inner : Option GoError) :
    RemediationError.UnwrapE ⟨p, inner, r⟩ =
      Except.ok (RemediationError.Unwrap ⟨p, inner, r⟩) ∧
    RemediationError.ErrorE ⟨p, inner, r⟩ =
      Except.ok (RemediationError.Error ⟨p, inner, r⟩) ∧
    RemediationError.PrintE ⟨p, inner, r⟩ =
      Except.ok (RemediationError.Print ⟨p, inner, r⟩) := by
  refine ⟨rfl, ?_, ?_⟩ <;> cases inner <;> rfl

/-- C7: `Print` is deterministic and depends only on the custom message, the
inner error's message and nil-ness, and the remediation: two values agreeing on
those produce identical output, even for distinct inner error values. -/
theorem c7_print_deterministic (p1 p2 r1 r2 : String) (i1 i2 : Option GoError)
    (hp : p1 = p2) (hm : i1.map GoError.msg = i2.map GoError.msg) (hr : r1 = r2) :
    RemediationError.Print ⟨p1, i1, r1⟩ = RemediationError.Print ⟨p2, i2, r2⟩ := by
  subst hp
  subst hr
  cases i1 with
  | none =>
    cases i2 with
    | none => rfl
    | some e2 => simp at hm
  | some e1 =>
    cases i2 with
    | none => simp at hm
    | some e2 =>
      simp only [Option.map_some'] at hm
      have hmm : e1.msg = e2.msg := Option.some.inj hm
      simp only [RemediationError.Print, hmm]

theorem c7_print_deterministic_witness :
    ("ctx" : String) = "ctx" ∧
    (some (GoError.mk 0 "boom")).map GoError.msg =
      (some (GoError.mk 1 "boom")).map GoError.msg ∧
    ("fix" : String) = "fix" ∧
    RemediationError.Print ⟨"ctx", some ⟨0, "boom"⟩, "fix"⟩ =
      RemediationError.Print ⟨"ctx", some ⟨1, "boom"⟩, "fix"⟩ :=
  ⟨rfl, by decide, rfl,
    c7_print_deterministic "ctx" "ctx" "fix" "fix" (some ⟨0, "boom"⟩)
      (some ⟨1, "boom"⟩) rfl (by decide) rfl⟩

/-- C8: `Print` passes the custom message, the inner message and the remediation
as format arguments, never as format strings: each appears verbatim in the
output, printf-style specifiers included, as the closing concrete case shows. -/
theorem c8_no_format_reinterpretation (p r m : String) (n : Nat) :
    RemediationError.Print ⟨p, some ⟨n, m⟩, r⟩ =
      (if p ≠ "" then goTrimRight p crlf ++ "\n\n" else "") ++
      ("Error: " ++ m ++ ".\n\n") ++
      (if r ≠ "" then goTrimRight r crlf ++ "\n" else "") ∧
    RemediationError.Print ⟨"a%sb", some ⟨0, "c%dd"⟩, "e%sf"⟩ =
      "a%sb\n\nError: c%dd.\n\ne%sf\n" := by
  constructor
  · simp only [RemediationError.Print, sprintfS_s_nn, sprintfS_s_n, textError_msg]
  · rfl

/-- C9: the trimming `Print` applies removes only trailing carriage returns and
newlines: what is removed consists solely of such characters, a string whose last
character is anything else is left whole (so trailing spaces and tabs survive),
and interior line breaks are emitted unchanged. -/
theorem c9_trim_scope (s : String) (l : List Char) (c : Char)
    (h1 : c ≠ '\r') (h2 : c ≠ '\n') :
    (∃ t : List Char, (∀ ch ∈ t, ch = '\r' ∨ ch = '\n') ∧
      s.data = (goTrimRight s crlf).data ++ t) ∧
    goTrimRight ⟨l ++ [c]⟩ crlf = ⟨l ++ [c]⟩ ∧
    RemediationError.Print ⟨"x \t\r\n\n", none, "y\nz\r"⟩ = "x \t\n\ny\nz\n" := by
  refine ⟨?_, ?_, rfl⟩
  · obtain ⟨t, ht, hs⟩ := goTrimRight_decompose s crlf
    refine ⟨t, fun ch hch => ?_, hs⟩
    have hm := ht ch hch
    simpa [crlf] using hm
  · refine goTrimRight_keep_last l c crlf ?_
    simp [crlf, h1, h2]

theorem c9_trim_scope_witness :
    ('\t' ≠ '\r') ∧ ('\t' ≠ '\n') ∧
    ((∃ t : List Char, (∀ ch ∈ t, ch = '\r' ∨ ch = '\n') ∧
        ("ab\r\n" : String).data = (goTrimRight "ab\r\n" crlf).data ++ t) ∧
     goTrimRight ⟨['a', ' '] ++ ['\t']⟩ crlf = ⟨['a', ' '] ++ ['\t']⟩ ∧
     RemediationError.Print ⟨"x \t\r\n\n", none, "y\nz\r"⟩ = "x \t\n\ny\nz\n") :=
  ⟨by decide, by decide, c9_trim_scope "ab\r\n" ['a', ' '] '\t' (by decide) (by decide)⟩

theorem callStep_fst (re : RemediationError) (op : CallOp) :
    (callStep re op).1 = re := by
  cases op <;> rfl

theorem callTrace_fst (re : RemediationError) (ops : List CallOp) :
    (callTrace re ops).1 = re := by
  induction ops generalizing re with
  | nil => rfl
  | cons op rest ih =>
    show (callTrace (callStep re op).1 rest).1 = re
    rw [callStep_fst]
    exact ih re

theorem callTrace_snd (re : RemediationError) (ops : List CallOp) :
    (callTrace re ops).2 = ops.map (fun op => (callStep re op).2) := by
  induction ops generalizing re with
  | nil => rfl
  | cons op rest ih =>
    show (callStep re op).2 :: (callTrace (callStep re op).1 rest).2 = _
    rw [callStep_fst, ih re]
    rfl

/-- C10: no sequence of `Unwrap`, `Error` and `Print` calls mutates the receiver:
after any call sequence the three fields still hold their construction values,
and every call in the sequence observes the construction-time state. -/
theorem c10_frame_immutable (p r : String) (inner : Option GoError)
    (ops : List CallOp) :
    (callTrace ⟨p, inner, r⟩ ops).1 = ⟨p, inner, r⟩ ∧
    (callTrace ⟨p, inner, r⟩ ops).2 =
      ops.map (fun op => (callStep ⟨p, inner, r⟩ op).2) :=
  ⟨callTrace_fst _ _, callTrace_snd _ _⟩
